import Mathlib

/-!
Verification of the Version Resolution & Installation Orchestrator and the
Process Launch Supervisor of the x-minecraft-launcher repository.

The orchestrator (`useInstanceVersionInstall().install`) is embedded as a pure
function from an environment (catalogs, installer results), an explicit
memoization cache (the set of already-fetched keys), the local version headers
and the request, to the returned artifact id together with a trace of the
observable effects (catalog fetches, installer invocations, refreshes).

The launch supervisor (`LaunchService`) is embedded as `Except`-returning
functions over an environment describing the outcomes of its external
collaborators (version parsing, diagnostics, java validation, spawn), and the
stderr/exit ordering is embedded as a labeled transition system.
-/

namespace XMCL

/-! ## JavaScript string primitives, on `List Char`

`String.prototype` operations used by the sources, with JavaScript clamping
semantics.  Everything is hand-rolled structurally so that concrete inputs
evaluate inside the kernel. -/

/-- Last index at which `pat` occurs in `s` (as `String.prototype.lastIndexOf`
on found/not-found): `some i` for the greatest `i` with `pat` a prefix of
`s.drop i`, else `none`. -/
def lastOccurrence (s pat : List Char) : Option Nat :=
  ((List.range (s.length + 1)).filter (fun i => pat.isPrefixOf (s.drop i))).getLast?

/-- `String.prototype.lastIndexOf`: the last occurrence index, or `-1`. -/
def jsLastIndexOf (s pat : String) : Int :=
  match lastOccurrence s.toList pat.toList with
  | some i => (i : Int)
  | none => -1

/-- `String.prototype.indexOf`: the first occurrence index, or `-1`. -/
def jsIndexOf (s pat : String) : Int :=
  match ((List.range (s.toList.length + 1)).filter
      (fun i => pat.toList.isPrefixOf (s.toList.drop i))).head? with
  | some i => (i : Int)
  | none => -1

/-- `s.substring(0, e)`: JavaScript clamps `e` into `[0, s.length]`
(negative end behaves as `0`). -/
def jsSubstringTo (s : String) (e : Int) : String :=
  String.mk (s.toList.take e.toNat)

/-- `s.substring(b)`: JavaScript clamps `b` into `[0, s.length]`. -/
def jsSubstringFrom (s : String) (b : Int) : String :=
  String.mk (s.toList.drop b.toNat)

/-- `String.prototype.replace` with a string pattern replaces only the FIRST
occurrence.  Structural scan; an empty pattern prepends the replacement, as in
JavaScript. -/
def replaceFirstL (pat repl : List Char) : List Char → List Char
  | [] => []
  | c :: rest =>
    if pat ≠ [] ∧ pat.isPrefixOf (c :: rest) then
      repl ++ List.drop pat.length (c :: rest)
    else
      c :: replaceFirstL pat repl rest

/-- `s.replace(pat, repl)` (first occurrence only, string pattern). -/
def jsReplaceFirst (s pat repl : String) : String :=
  if pat = "" then repl ++ s
  else String.mk (replaceFirstL pat.toList repl.toList s.toList)

/-- The ASCII part of the whitespace set trimmed by `String.prototype.trim`
(the sources only ever trim ASCII report paths). -/
def isJsWhitespace (c : Char) : Bool :=
  c = ' ' || c = '\t' || c = '\n' || c = '\r' || c = '\x0b' || c = '\x0c'

/-- `String.prototype.trim`. -/
def jsTrim (s : String) : String :=
  String.mk (((s.toList.dropWhile isJsWhitespace).reverse.dropWhile isJsWhitespace).reverse)

/-- `s.split(sep)` with a non-empty string separator, fueled structurally
(`fuel ≥ s.length` makes the fuel branch unreachable). -/
def splitGo (sep : List Char) : Nat → List Char → List Char → List (List Char)
  | _, [], acc => [acc.reverse]
  | 0, s, acc => [acc.reverse ++ s]
  | fuel + 1, c :: rest, acc =>
    if sep ≠ [] ∧ sep.isPrefixOf (c :: rest) then
      acc.reverse :: splitGo sep fuel (List.drop sep.length (c :: rest)) []
    else
      splitGo sep fuel rest (c :: acc)

/-- `s.split(sep)`; an empty separator is never used by the sources and is
mapped to the JavaScript corner case `[s]` for `s ≠ ""`. -/
def jsSplit (s sep : String) : List String :=
  if sep = "" then [s]
  else (splitGo sep.toList (s.toList.length + 1) s.toList []).map String.mk

/-! ## Data model of the orchestrator -/

/-- The `side` argument of `install`. -/
inductive Side
  | client
  | server
deriving DecidableEq, Repr

/-- `LocalVersionHeader`: a previously assembled local version.  Component
fields are `""` when the component is not part of the artifact (matching the
empty-string encoding the finds compare against). -/
structure LocalVersionHeader where
  id : String
  minecraft : String
  forge : String := ""
  neoForged : String := ""
  fabric : String := ""
  quilt : String := ""
  optifine : String := ""
  labyMod : String := ""
deriving DecidableEq, Repr

/-- `RuntimeVersions`: the request.  Optional loader fields are `""` when
unset, matching JavaScript truthiness (`undefined` and `""` behave alike in
every `if (field)` guard of the source). -/
structure RuntimeVersions where
  minecraft : String
  forge : String := ""
  neoForged : String := ""
  fabricLoader : String := ""
  quiltLoader : String := ""
  optifine : String := ""
  labyMod : String := ""
deriving DecidableEq, Repr

/-- One entry of the forge version catalog (`getForgeVersionList`). -/
structure ForgeCatalogEntry where
  version : String
  installer : Option String := none
deriving DecidableEq, Repr

/-- Observable effects of one `install` call: catalog fetcher invocations
(`getCacheOrFetch` misses), `refreshVersion` calls, and installer service
invocations with the arguments the source passes. -/
inductive InstallEvent
  | fetch (key : String)
  | refreshVersion (id : String)
  | installMinecraft (metadata : Option String) (side : Side)
  | installForge (mcversion : String) (version : String) (installer : Option String) (side : Side)
  | installNeoForged (version : String) (minecraft : String)
  | installOptifine (type_ : String) (patch : String) (mcversion : String) (inheritFrom : Option String)
  | installFabric (loader : String) (minecraft : String)
  | installQuilt (version : String) (minecraftVersion : String)
  | installLabyModVersion (manifest : String) (minecraftVersion : String)
deriving DecidableEq, Repr

/-- The external collaborators of `install`: catalog contents and the ids
returned by the installer services.  All are arbitrary; the orchestrator
treats them as opaque. -/
structure InstallEnv where
  minecraftVersions : List String
  forgeVersionList : String → List ForgeCatalogEntry
  neoForgedVersionList : String → List String
  labyModManifest : String
  parseOptifineVersion : String → String × String
  installForgeResult : String → String → Option String → Side → String
  installNeoForgedResult : String → String → String
  installOptifineResult : String → String → String → Option String → String
  installFabricResult : String → String → String
  installQuiltResult : String → String → String
  installLabyModResult : String → String → String

/-- `getCacheOrFetch(key, fetcher)`: the fetcher runs (a `fetch` event) iff
the key is absent from the memoization cache. -/
def cacheFetchEvents (cache : List String) (key : String) : List InstallEvent :=
  if key ∈ cache then [] else [InstallEvent.fetch key]

/-- The base-version block of `install`: fetch-or-reuse the minecraft
catalog, then either refresh the matching local header or invoke the base
installer on the (possibly absent) catalog entry — the source's non-null
assertion `...find(...)!` performs no check. -/
def baseStep (env : InstallEnv) (cache : List String) (locals : List LocalVersionHeader)
    (runtime : RuntimeVersions) (side : Side) (jar : Bool) : List InstallEvent :=
  let ev0 := cacheFetchEvents cache "/minecraft-versions"
  match locals.find? (fun v => v.id == runtime.minecraft), jar with
  | some lm, false => ev0 ++ [InstallEvent.refreshVersion lm.id]
  | _, _ =>
    let metadata := env.minecraftVersions.find? fun v => v == runtime.minecraft
    ev0 ++ [InstallEvent.installMinecraft metadata side]

/-- The `if (forge)` block of `install`: its `forgeVersion` contribution and
its events. -/
def forgeStep (env : InstallEnv) (cache : List String) (locals : List LocalVersionHeader)
    (runtime : RuntimeVersions) (side : Side) : Option String × List InstallEvent :=
  if runtime.forge ≠ "" then
    match locals.find? (fun v => v.forge == runtime.forge && v.minecraft == runtime.minecraft) with
    | none =>
      let fev := cacheFetchEvents cache ("/forge-versions/" ++ runtime.minecraft)
      let found := (env.forgeVersionList runtime.minecraft).find? fun v => v.version == runtime.forge
      let forgeVersionId := (found.map ForgeCatalogEntry.version).getD runtime.forge
      let inst := found.bind ForgeCatalogEntry.installer
      (some (env.installForgeResult runtime.minecraft forgeVersionId inst side),
        fev ++ [InstallEvent.installForge runtime.minecraft forgeVersionId inst side])
    | some localForge =>
      (some localForge.id, [InstallEvent.refreshVersion localForge.id])
  else (none, [])

/-- The `if (neoForged)` block of `install` — an independent `if`, not an
`else if`: when it runs, its result is REASSIGNED over the forge branch's
`forgeVersion`. -/
def neoForgedStep (env : InstallEnv) (cache : List String) (locals : List LocalVersionHeader)
    (runtime : RuntimeVersions) : Option String × List InstallEvent :=
  if runtime.neoForged ≠ "" then
    match locals.find? (fun v => v.neoForged == runtime.neoForged && v.minecraft == runtime.minecraft) with
    | none =>
      let nev := cacheFetchEvents cache ("/neoforged-versions/" ++ runtime.minecraft)
      let found := (env.neoForgedVersionList runtime.minecraft).find? fun v => v == runtime.neoForged
      let id := found.getD runtime.neoForged
      (some (env.installNeoForgedResult id runtime.minecraft),
        nev ++ [InstallEvent.installNeoForged id runtime.minecraft])
    | some localNeoForge =>
      (some localNeoForge.id, [InstallEvent.refreshVersion localNeoForge.id])
  else (none, [])

/-- The remainder of `install` after `forgeVersion` is settled: the optifine
block (which short-circuits), the `else if (forgeVersion)` early return, then
the fabric / quilt / labyMod blocks and the plain base-version fallthrough.
Returns the final id and the events this part appends. -/
def tailStep (env : InstallEnv) (cache : List String) (locals : List LocalVersionHeader)
    (runtime : RuntimeVersions) (forgeVersion : Option String) : String × List InstallEvent :=
  let minecraft := runtime.minecraft
  if runtime.optifine ≠ "" then
    let optifineVersion :=
      if minecraft.toList.isPrefixOf runtime.optifine.toList then
        String.mk (runtime.optifine.toList.drop minecraft.length)
      else runtime.optifine
    match locals.find? (fun v => v.minecraft == minecraft && v.optifine == optifineVersion
        && v.forge == forgeVersion.getD "") with
    | some localOptifine =>
      (localOptifine.id, [InstallEvent.refreshVersion localOptifine.id])
    | none =>
      let tp := env.parseOptifineVersion optifineVersion
      (env.installOptifineResult tp.1 tp.2 minecraft forgeVersion,
        [InstallEvent.installOptifine tp.1 tp.2 minecraft forgeVersion])
  else
    match forgeVersion with
    | some fv => (fv, [])
    | none =>
      if runtime.fabricLoader ≠ "" then
        match locals.find? (fun v => v.fabric == runtime.fabricLoader && v.minecraft == runtime.minecraft) with
        | some localFabric =>
          (localFabric.id, [InstallEvent.refreshVersion localFabric.id])
        | none =>
          (env.installFabricResult runtime.fabricLoader minecraft,
            [InstallEvent.installFabric runtime.fabricLoader minecraft])
      else if runtime.quiltLoader ≠ "" then
        match locals.find? (fun v => v.quilt == runtime.quiltLoader && v.minecraft == runtime.minecraft) with
        | some localQuilt =>
          (localQuilt.id, [InstallEvent.refreshVersion localQuilt.id])
        | none =>
          (env.installQuiltResult runtime.quiltLoader minecraft,
            [InstallEvent.installQuilt runtime.quiltLoader minecraft])
      else if runtime.labyMod ≠ "" then
        match locals.find? (fun v => v.labyMod == runtime.labyMod && v.minecraft == runtime.minecraft) with
        | some localLabyMod =>
          (localLabyMod.id, [InstallEvent.refreshVersion localLabyMod.id])
        | none =>
          let lev := cacheFetchEvents cache "/labymod"
          (env.installLabyModResult env.labyModManifest minecraft,
            lev ++ [InstallEvent.installLabyModVersion env.labyModManifest minecraft])
      else (minecraft, [])

/-- `useInstanceVersionInstall(versions).install(runtime, side, jar)`:
returns the artifact id together with the ordered effect trace. -/
def install (env : InstallEnv) (cache : List String) (locals : List LocalVersionHeader)
    (runtime : RuntimeVersions) (side : Side) (jar : Bool) : String × List InstallEvent :=
  let ev1 := baseStep env cache locals runtime side jar
  let forgePart := forgeStep env cache locals runtime side
  let neoPart := neoForgedStep env cache locals runtime
  -- `forgeVersion` is assigned by the forge branch and then reassigned by the
  -- neoForged branch whenever the latter runs.
  let forgeVersion : Option String :=
    match neoPart.1 with
    | some v => some v
    | none => forgePart.1
  let tail := tailStep env cache locals runtime forgeVersion
  (tail.1, ev1 ++ forgePart.2 ++ neoPart.2 ++ tail.2)

/-! ## Data model of the launch supervisor (`LaunchService`) -/

/-- An untyped JavaScript error (its message); raised by external
collaborators and by internal plumbing. -/
abbrev JsError := String

/-- `JavaValidation` results of `javaService.validateJavaPath`. -/
inductive JavaValidation
  | Okay
  | NotExisted
  | NoPermission
deriving DecidableEq, Repr

/-- The fields of a `ResolvedVersion` the supervisor reads. -/
structure ResolvedVersion where
  id : String
  minecraftVersion : String
deriving DecidableEq, Repr

/-- The fields of a `UserProfile` the supervisor reads:
`user.profiles[user.selectedProfile]` is a JavaScript property access that may
be `undefined`. -/
structure UserProfile where
  profiles : List (String × String)
  selectedProfile : String
deriving DecidableEq, Repr

/-- `options.server` of `LaunchOptions`. -/
structure ServerTarget where
  host : String
  port : Option Nat := none
deriving DecidableEq, Repr

/-- `LaunchOptions` of the public service interface.  `version` and `java`
are required strings (`""` is falsy, like `undefined`, in every guard). -/
structure LaunchOptions where
  version : String
  gameDirectory : String
  user : UserProfile
  java : String
  server : Option ServerTarget := none
  yggdrasilAgent : Option String := none
  launcherName : Option String := none
  launcherBrand : Option String := none
  maxMemory : Option Nat := none
  minMemory : Option Nat := none
  skipAssetsCheck : Bool := false
  vmOptions : Option (List String) := none
  mcOptions : Option (List String) := none
deriving DecidableEq, Repr

/-- The `server` field of the core `LaunchOption`. -/
structure CoreServer where
  ip : String
  port : Option Nat
deriving DecidableEq, Repr

/-- The `LaunchOption` record built by `#generateOptions` and handed to the
core argument generator and the core spawner. -/
structure CoreLaunchOption where
  gameProfile : Option String
  accessToken : Option String
  gamePath : String
  resourcePath : String
  javaPath : String
  minMemory : Option Nat
  maxMemory : Option Nat
  version : ResolvedVersion
  detached : Bool
  cwd : String
  extraJVMArgs : Option (List String)
  extraMCArgs : Option (List String)
  launcherBrand : String
  launcherName : String
  yggdrasilAgent : Option String
  server : Option CoreServer
deriving DecidableEq, Repr

/-- Modelled from the spec: the development-mode authority marker
(`AUTHORITY_DEV` of the runtime api, defined outside the excerpt); requests
whose server host equals it are rewritten to a local loopback endpoint.  Its
literal value is opaque to the supervisor. -/
def AUTHORITY_DEV : String := "authlib-injector:yggdrasil-server:dev"

/-- `this.app.server.address()`: `null`, a string address, or `{ port }`. -/
abbrev AppAddress := Option (String ⊕ Nat)

/-- The `getAddress` closure of `#generateOptions`: resolves the local
yggdrasil endpoint or throws when the server is not listening. -/
def getAddress : AppAddress → Except JsError String
  | some (Sum.inl s) =>
    Except.ok ("http://localhost" ++ jsSubstringFrom s (jsIndexOf s ":") ++ "/yggdrasil")
  | some (Sum.inr port) =>
    Except.ok ("http://localhost:" ++ toString port ++ "/yggdrasil")
  | none =>
    Except.error "Unexpected state. The OfflineYggdrasilServer does not initialized?"

/-- `LaunchService.#generateOptions(options, version, accessToken)`:
builds the core `LaunchOption`.  Note the swapped assignments
`minMemory := options.maxMemory` and `maxMemory := options.minMemory`,
exactly as in the source. -/
def generateOptions (resourcePath : String) (addr : AppAddress) (options : LaunchOptions)
    (version : ResolvedVersion) (accessToken : Option String) :
    Except JsError CoreLaunchOption :=
  let user := options.user
  let gameProfile := user.profiles.lookup user.selectedProfile
  let javaPath := options.java
  let minecraftFolderRoot := options.gameDirectory
  let minMemory : Option Nat := options.maxMemory
  let maxMemory : Option Nat := options.minMemory
  let base : CoreLaunchOption :=
    { gameProfile := gameProfile
      accessToken := accessToken
      gamePath := minecraftFolderRoot
      resourcePath := resourcePath
      javaPath := javaPath
      minMemory := minMemory
      maxMemory := maxMemory
      version := version
      detached := true
      cwd := minecraftFolderRoot
      extraJVMArgs := options.vmOptions.map (fun l => l.filter (fun v => v ≠ ""))
      extraMCArgs := options.mcOptions.map (fun l => l.filter (fun v => v ≠ ""))
      launcherBrand := options.launcherBrand.getD ""
      launcherName := options.launcherName.getD "XMCL"
      yggdrasilAgent := options.yggdrasilAgent
      server := none }
  match options.server with
  | none => Except.ok base
  | some srv =>
    match (if srv.host = AUTHORITY_DEV then getAddress addr else Except.ok srv.host) with
    | Except.error e => Except.error e
    | Except.ok ip => Except.ok { base with server := some { ip := ip, port := srv.port } }

/-- The closed error taxonomy (`LaunchExceptions` of the runtime api), each
variant with the payload the supervisor attaches. -/
inductive LaunchExceptions
  | launchNoVersionInstalled (version : String)
  | launchGeneralException (error : JsError)
  | launchNoProperJava (javaPath : String)
  | launchInvalidJavaPath (javaPath : String)
  | launchJavaNoPermission (javaPath : String)
  | launchUserStatusRefreshFailed
deriving DecidableEq, Repr

/-- An exception in flight inside the component: either an untyped
JavaScript error or an already-typed `LaunchException`. -/
inductive RawError
  | js (e : JsError)
  | typed (e : LaunchExceptions)
deriving DecidableEq, Repr

/-- The `catch` clause shared by both public entry points:
`if (e instanceof LaunchException) throw e` else wrap into
`launchGeneralException`. -/
def wrapLaunchError : RawError → LaunchExceptions
  | RawError.js e => LaunchExceptions.launchGeneralException e
  | RawError.typed e => e

/-- The spawned `ChildProcess` handle: `pid` may be absent. -/
structure SpawnedProcess where
  pid : Option Nat
deriving DecidableEq, Repr

/-- Outcomes of the supervisor's external collaborators for one launch
attempt (each `Except.error` is a rejection of that collaborator). -/
structure LaunchEnv where
  resourcePath : String
  parseVersion : String → Except JsError ResolvedVersion
  diagnoseJar : Except JsError Bool
  installMinecraftJar : Except JsError Unit
  diagnoseLibraries : Except JsError (List String)
  installLibraries : List String → Except JsError Unit
  getUserToken : Except JsError String
  serverAddress : AppAddress
  validateJavaPath : String → Except JsError JavaValidation
  coreGenerateArguments : CoreLaunchOption → Except JsError (List String)
  coreLaunch : CoreLaunchOption → Except JsError SpawnedProcess

/-- The version-resolution preamble shared by `generateArguments` and
`launch`: `if (options.version)` try to parse, swallowing the parse error;
`version` stays `undefined` otherwise. -/
def resolveVersion (env : LaunchEnv) (options : LaunchOptions) : Option ResolvedVersion :=
  if options.version ≠ "" then (env.parseVersion options.version).toOption else none

/-- The preflight block of `launch` (skipped by `skipAssetsCheck`): jar
diagnosis with conditional jar reinstall, library diagnosis with conditional
library install; a rejection of either aborts. -/
def preflight (env : LaunchEnv) (options : LaunchOptions) : Except RawError Unit :=
  if options.skipAssetsCheck then Except.ok ()
  else
    match env.diagnoseJar with
    | Except.error e => Except.error (RawError.js e)
    | Except.ok issue =>
      match (if issue then env.installMinecraftJar else Except.ok ()) with
      | Except.error e => Except.error (RawError.js e)
      | Except.ok _ =>
        match env.diagnoseLibraries with
        | Except.error e => Except.error (RawError.js e)
        | Except.ok libs =>
          match (if libs.length > 0 then env.installLibraries libs else Except.ok ()) with
          | Except.error e => Except.error (RawError.js e)
          | Except.ok _ => Except.ok ()

/-- The java-validation block of `launch`: an inner `try` whose `catch`
replaces ANY failure — including the `launchInvalidJavaPath` and
`launchJavaNoPermission` exceptions thrown inside the very same `try` — with
`launchNoProperJava`, exactly as in the source. -/
def javaPathCheck (validation : Except JsError JavaValidation) (javaPath : String) :
    Except RawError Unit :=
  let inner : Except RawError Unit :=
    match validation with
    | Except.error e => Except.error (RawError.js e)
    | Except.ok result =>
      if result = JavaValidation.NotExisted then
        Except.error (RawError.typed (LaunchExceptions.launchInvalidJavaPath javaPath))
      else if result = JavaValidation.NoPermission then
        Except.error (RawError.typed (LaunchExceptions.launchJavaNoPermission javaPath))
      else Except.ok ()
  match inner with
  | Except.ok _ => Except.ok ()
  | Except.error _ =>
    Except.error (RawError.typed (LaunchExceptions.launchNoProperJava javaPath))

/-- Body of `LaunchService.generateArguments` without the outer
`try`/`catch` (errors still raw). -/
def generateArgumentsInner (env : LaunchEnv) (options : LaunchOptions) :
    Except RawError (List String) :=
  match resolveVersion env options with
  | none => Except.error (RawError.typed (LaunchExceptions.launchNoVersionInstalled options.version))
  | some version =>
    if options.java = "" then
      Except.error (RawError.typed (LaunchExceptions.launchNoProperJava ""))
    else
      -- `accessToken = await userTokenStorage.get(user).catch(() => undefined)`
      match generateOptions env.resourcePath env.serverAddress options version
          env.getUserToken.toOption with
      | Except.error e => Except.error (RawError.js e)
      | Except.ok opts =>
        match env.coreGenerateArguments opts with
        | Except.error e => Except.error (RawError.js e)
        | Except.ok args => Except.ok args

/-- `LaunchService.generateArguments`: the outer `catch` rethrows
`LaunchException`s and wraps anything else into `launchGeneralException`. -/
def generateArguments (env : LaunchEnv) (options : LaunchOptions) :
    Except LaunchExceptions (List String) :=
  (generateArgumentsInner env options).mapError wrapLaunchError

/-- Body of `LaunchService.launch` up to and including the spawn, without
the outer `try`/`catch` (errors still raw); resolves to `process.pid`. -/
def launchInner (env : LaunchEnv) (options : LaunchOptions) :
    Except RawError (Option Nat) :=
  match resolveVersion env options with
  | none => Except.error (RawError.typed (LaunchExceptions.launchNoVersionInstalled options.version))
  | some version =>
    match preflight env options with
    | Except.error e => Except.error e
    | Except.ok _ =>
      if options.java = "" then
        Except.error (RawError.typed (LaunchExceptions.launchNoProperJava ""))
      else
        -- `accessToken = await userTokenStorage.get(user).catch(() => undefined)`
        match generateOptions env.resourcePath env.serverAddress options version
            env.getUserToken.toOption with
        | Except.error e => Except.error (RawError.js e)
        | Except.ok launchOptions =>
          match javaPathCheck (env.validateJavaPath options.java) options.java with
          | Except.error e => Except.error e
          | Except.ok _ =>
            match env.coreLaunch launchOptions with
            | Except.error e => Except.error (RawError.js e)
            | Except.ok process => Except.ok process.pid

/-- `LaunchService.launch`: the outer `catch` rethrows `LaunchException`s
and wraps anything else into `launchGeneralException`. -/
def launch (env : LaunchEnv) (options : LaunchOptions) :
    Except LaunchExceptions (Option Nat) :=
  (launchInner env options).mapError wrapLaunchError

/-! ## The running phase: stderr accumulation and the exit event -/

/-- `crashReportLocation.substring(0, crashReportLocation.lastIndexOf('.txt') + 4)`. -/
def truncatedCrashReportLocation (s : String) : String :=
  jsSubstringTo s (jsLastIndexOf s ".txt" + 4)

/-- The `crashReportLocation` value carried by the consolidated exit event:
`if (crashReportLocation)` truncate at the last `.txt`, then
`crashReportLocation ? crashReportLocation.replace('\r\n', '').trim() : ''`. -/
def emittedCrashReportLocation (loc : Option String) : String :=
  let t : String :=
    match loc with
    | some s => if s ≠ "" then truncatedCrashReportLocation s else s
    | none => ""
  if t ≠ "" then jsTrim (jsReplaceFirst t "\r\n" "") else ""

/-- Modelled from the spec (the claim side of the refinement): truncate just
after the LAST occurrence of the report file extension `.txt` and remove the
line-terminator characters. -/
def crashReportLocationSpec (s : String) : String :=
  let t : List Char :=
    match lastOccurrence s.toList ".txt".toList with
    | some i => s.toList.take (i + 4)
    | none => s.toList
  String.mk (t.filter (fun c => !(c = '\n' || c = '\r')))

/-- `errorLogs.join('\n')`. -/
def joinLines : List String → String
  | [] => ""
  | [x] => x
  | x :: xs => x ++ "\n" ++ joinLines xs

/-- The lines one raw stderr chunk contributes to the error-log buffer:
`result.split(EOL)` of the decoded chunk (decoding and `EOL` are
environment). -/
def chunkLines (decode : String → String) (eol : String) (c : String) : List String :=
  jsSplit (decode c) eol

/-- What the process exit carries (`minecraft-exit` of the watcher). -/
structure ExitInfo where
  code : Option Int := none
  signal : Option String := none
  crashReport : Option String := none
  crashReportLocation : Option String := none
deriving DecidableEq, Repr

/-- The events the supervisor emits during the running phase that the
ordering claims are about. -/
inductive SupEvent
  | stderr (text : String)
  | exited (errorLog : String) (crashReportLocation : String)
deriving DecidableEq, Repr

/-- State of one supervised launch: chunks received on stderr, chunks whose
`processError` task is still pending, the accumulated error-log buffer,
whether the process has died, whether the consolidated exit event has been
emitted, and the emitted event trace. -/
structure SupState where
  received : List String
  pending : List String
  errorLogs : List String
  dead : Bool
  exitEmitted : Bool
  trace : List SupEvent
deriving DecidableEq, Repr

/-- Initial supervision state, right after the spawn. -/
def initSup : SupState :=
  { received := [], pending := [], errorLogs := [], dead := false
    exitEmitted := false, trace := [] }

/-- One cooperative scheduling step of the running phase:
* `recv` — a stderr `data` event fires (only while the process is alive) and
  pushes a `processError(buf)` task into `errPromises`;
* `complete` — one pending `processError` task finishes: it emits the
  `minecraft-stderr` event and appends the decoded lines to `errorLogs`
  (tasks may complete in any order);
* `die` — the process terminates, firing the watcher's exit callback;
* `emitExit` — the `Promise.all(errPromises).finally(...)` continuation runs:
  only once, only after death, and only when every pending decode task has
  completed; it emits the consolidated exit event with
  `errorLog = errorLogs.join('\n')` and the normalized crash-report path. -/
inductive SupStep (decode : String → String) (eol : String) (info : ExitInfo) :
    SupState → SupState → Prop
  | recv (s : SupState) (c : String) :
      s.dead = false →
      SupStep decode eol info s
        { s with received := s.received ++ [c], pending := s.pending ++ [c] }
  | complete (s : SupState) (l1 l2 : List String) (c : String) :
      s.pending = l1 ++ c :: l2 →
      SupStep decode eol info s
        { s with pending := l1 ++ l2
                 errorLogs := s.errorLogs ++ chunkLines decode eol c
                 trace := s.trace ++ [SupEvent.stderr (decode c)] }
  | die (s : SupState) :
      s.dead = false →
      SupStep decode eol info s { s with dead := true }
  | emitExit (s : SupState) :
      s.dead = true → s.pending = [] → s.exitEmitted = false →
      SupStep decode eol info s
        { s with exitEmitted := true
                 trace := s.trace ++ [SupEvent.exited (joinLines s.errorLogs)
                   (emittedCrashReportLocation info.crashReportLocation)] }

/-- Reachability of supervision states from the spawn. -/
def SupReachable (decode : String → String) (eol : String) (info : ExitInfo)
    (s : SupState) : Prop :=
  Relation.ReflTransGen (SupStep decode eol info) initSup s

/-- Invariant of the running phase: the error-log buffer holds exactly the
line blocks of the completed chunks (some interleaving of the received ones
minus the pending ones); once the exit event is emitted it is the final trace
event, the pending set is empty, and its payload is the joined buffer; before
emission no exit event is in the trace. -/
def SupInv (decode : String → String) (eol : String) (info : ExitInfo) (s : SupState) : Prop :=
  (∃ completed : List String,
      s.received.Perm (completed ++ s.pending) ∧
      s.errorLogs = completed.flatMap (chunkLines decode eol)) ∧
  (s.exitEmitted = true →
      s.dead = true ∧ s.pending = [] ∧
      ∃ t, s.trace = t ++ [SupEvent.exited (joinLines s.errorLogs)
          (emittedCrashReportLocation info.crashReportLocation)] ∧
        ∀ el cl, SupEvent.exited el cl ∉ t) ∧
  (s.exitEmitted = false → ∀ el cl, SupEvent.exited el cl ∉ s.trace)

/-! ## Concrete fixtures for the closed theorems -/

/-- Concrete orchestrator environment: a one-entry base catalog, empty
loader catalogs, fixed installer results. -/
def envA : InstallEnv where
  minecraftVersions := ["1.20.1"]
  forgeVersionList := fun _ => []
  neoForgedVersionList := fun _ => []
  labyModManifest := "m"
  parseOptifineVersion := fun s => (s, s)
  installForgeResult := fun _ _ _ _ => "forge-out"
  installNeoForgedResult := fun _ _ => "neo-out"
  installOptifineResult := fun _ _ _ _ => "opti-out"
  installFabricResult := fun _ _ => "fabric-out"
  installQuiltResult := fun _ _ => "quilt-out"
  installLabyModResult := fun _ _ => "laby-out"

/-- `envA` with an empty base catalog. -/
def envEmptyCat : InstallEnv :=
  { envA with minecraftVersions := [] }

/-- A local header for the plain base version `1.20.1`. -/
def hdrMc : LocalVersionHeader := { id := "1.20.1", minecraft := "1.20.1" }

/-- A local header for forge `47.2.0` on `1.20.1`. -/
def hdrForge : LocalVersionHeader :=
  { id := "1.20.1-forge-47.2.0", minecraft := "1.20.1", forge := "47.2.0" }

/-- Local store holding both headers of the forge fast path. -/
def locals4 : List LocalVersionHeader := [hdrMc, hdrForge]

/-- Request: base plus forge. -/
def rtForge : RuntimeVersions := { minecraft := "1.20.1", forge := "47.2.0" }

/-- Request: base plus BOTH forge and neoForged. -/
def rtForgeNeo : RuntimeVersions :=
  { minecraft := "1.20.1", forge := "47.2.0", neoForged := "20.4.80" }

/-- Request: base plus BOTH fabricLoader and quiltLoader. -/
def rtFabQuilt : RuntimeVersions :=
  { minecraft := "1.20.1", fabricLoader := "0.15.0", quiltLoader := "0.23.0" }

/-- A user with one selected profile. -/
def userA : UserProfile := { profiles := [("p", "gp")], selectedProfile := "p" }

/-- A resolved version. -/
def vRes : ResolvedVersion := { id := "v", minecraftVersion := "1.20.1" }

/-- Launch options with a parseable version override and a java path. -/
def optsPlain : LaunchOptions :=
  { version := "v", gameDirectory := "/game", user := userA, java := "/java"
    skipAssetsCheck := true }

/-- `optsPlain` with both memory bounds requested. -/
def optsMem : LaunchOptions :=
  { optsPlain with maxMemory := some 4096, minMemory := some 1024 }

/-- A launch environment in which every collaborator succeeds. -/
def envOk : LaunchEnv :=
  { resourcePath := "/resources"
    parseVersion := fun id => Except.ok { id := id, minecraftVersion := "1.20.1" }
    diagnoseJar := Except.ok false
    installMinecraftJar := Except.ok ()
    diagnoseLibraries := Except.ok []
    installLibraries := fun _ => Except.ok ()
    getUserToken := Except.ok "token"
    serverAddress := none
    validateJavaPath := fun _ => Except.ok JavaValidation.Okay
    coreGenerateArguments := fun _ => Except.ok ["arg"]
    coreLaunch := fun _ => Except.ok { pid := some 42 } }

/-- `envOk` but the configured java path does not exist. -/
def envNotExisted : LaunchEnv :=
  { envOk with validateJavaPath := fun _ => Except.ok JavaValidation.NotExisted }

/-- `envOk` but the configured java path is not executable. -/
def envNoPermission : LaunchEnv :=
  { envOk with validateJavaPath := fun _ => Except.ok JavaValidation.NoPermission }

/-- `envOk` but the core spawner rejects with an untyped error. -/
def envSpawnBoom : LaunchEnv :=
  { envOk with coreLaunch := fun _ => Except.error "boom" }

/-- `envOk` but the core argument generator rejects with an untyped error. -/
def envArgsBoom : LaunchEnv :=
  { envOk with coreGenerateArguments := fun _ => Except.error "argfail" }

/-- Identity decoding, for the concrete supervision run. -/
def decodeId : String → String := fun c => c

/-- Exit info carrying the crash-report path of the spec's worked example. -/
def infoW : ExitInfo := { crashReportLocation := some "C:\\logs\\crash-2024.txt\nTail" }

/-- Final state of a concrete supervision run: one stderr chunk received and
decoded into two lines, process death, decode work drained, exit emitted. -/
def supFinal : SupState :=
  { received := ["err1\nerr2"], pending := [], errorLogs := ["err1", "err2"]
    dead := true, exitEmitted := true
    trace := [SupEvent.stderr "err1\nerr2",
      SupEvent.exited "err1\nerr2" "C:\\logs\\crash-2024.txt"] }

/-! ## Helper lemmas -/

/-- The full trace of one `install` call is the concatenation of the four
blocks' traces, in source order. -/
theorem install_trace_eq (env : InstallEnv) (cache : List String)
    (locals : List LocalVersionHeader) (runtime : RuntimeVersions) (side : Side) (jar : Bool) :
    (install env cache locals runtime side jar).2 =
      baseStep env cache locals runtime side jar
        ++ (forgeStep env cache locals runtime side).2
        ++ (neoForgedStep env cache locals runtime).2
        ++ (tailStep env cache locals runtime
              (match (neoForgedStep env cache locals runtime).1 with
               | some v => some v
               | none => (forgeStep env cache locals runtime side).1)).2 := rfl

/-- No event of the base-version block is a Quilt installer invocation. -/
theorem installQuilt_not_mem_baseStep (env : InstallEnv) (cache : List String)
    (locals : List LocalVersionHeader) (runtime : RuntimeVersions) (side : Side) (jar : Bool)
    (a b : String) :
    InstallEvent.installQuilt a b ∉ baseStep env cache locals runtime side jar := by
  unfold baseStep
  split <;> simp [cacheFetchEvents]

/-- The supervision invariant holds initially. -/
theorem supInv_init (decode : String → String) (eol : String) (info : ExitInfo) :
    SupInv decode eol info initSup := by
  refine ⟨⟨[], by simp [initSup], by simp [initSup]⟩, by simp [initSup], by simp [initSup]⟩

/-- The supervision invariant is preserved by every step. -/
theorem supInv_step {decode : String → String} {eol : String} {info : ExitInfo}
    {s s2 : SupState} (h : SupStep decode eol info s s2) (hs : SupInv decode eol info s) :
    SupInv decode eol info s2 := by
  obtain ⟨⟨completed, hperm, hlogs⟩, hex, hnex⟩ := hs
  cases h with
  | recv c hdead =>
    refine ⟨⟨completed, ?_, hlogs⟩, ?_, hnex⟩
    · simpa [List.append_assoc] using hperm.append_right [c]
    · intro hemit
      obtain ⟨hd, _, _⟩ := hex hemit
      rw [hdead] at hd
      exact absurd hd (by simp)
  | complete l1 l2 c hp =>
    refine ⟨⟨completed ++ [c], ?_, ?_⟩, ?_, ?_⟩
    · have h1 : s.received.Perm (completed ++ (l1 ++ c :: l2)) := hp ▸ hperm
      have h2 : (completed ++ (l1 ++ c :: l2)).Perm ((completed ++ [c]) ++ (l1 ++ l2)) := by
        refine ((List.Perm.refl completed).append List.perm_middle).trans ?_
        rw [List.append_cons completed c (l1 ++ l2)]
      exact h1.trans h2
    · rw [hlogs]
      simp [List.flatMap_append, chunkLines]
    · intro hemit
      obtain ⟨_, hpend, _⟩ := hex hemit
      rw [hp] at hpend
      exact absurd hpend (by simp)
    · intro hne el cl hmem
      rcases List.mem_append.mp hmem with hm | hm
      · exact hnex hne el cl hm
      · simp at hm
  | die hdead =>
    refine ⟨⟨completed, hperm, hlogs⟩, ?_, hnex⟩
    intro hemit
    obtain ⟨_, hpend, htr⟩ := hex hemit
    exact ⟨rfl, hpend, htr⟩
  | emitExit hd hp hne =>
    refine ⟨⟨completed, hperm, hlogs⟩, ?_, ?_⟩
    · intro _
      exact ⟨hd, hp, ⟨_, rfl, hnex hne⟩⟩
    · intro hfalse
      simp at hfalse

/-- Every reachable supervision state satisfies the invariant. -/
theorem supInv_reachable {decode : String → String} {eol : String} {info : ExitInfo}
    {s : SupState} (h : SupReachable decode eol info s) : SupInv decode eol info s := by
  induction h with
  | refl => exact supInv_init decode eol info
  | tail _ hbc ih => exact supInv_step hbc ih

/-! ## Claims -/

/-- C1, counterexample: requesting BOTH forge and neoForged with no local
headers makes one `install` call consult the NeoForge catalog and invoke BOTH
the Forge and the NeoForge installers — the claim says the NeoForge catalog
is never consulted and the two are never both installed when forge is
requested. -/
theorem c1_counterexample :
    InstallEvent.fetch "/neoforged-versions/1.20.1" ∈ (install envA [] [] rtForgeNeo Side.client false).2 ∧
    InstallEvent.installNeoForged "20.4.80" "1.20.1" ∈ (install envA [] [] rtForgeNeo Side.client false).2 ∧
    InstallEvent.installForge "1.20.1" "47.2.0" none Side.client ∈ (install envA [] [] rtForgeNeo Side.client false).2 := by
  decide

/-- C1, amended: the NeoForge branch is an independent `if`, not the
else-branch of the Forge branch.  Whenever both loaders are requested and
neither has a matching local header, one `install` call invokes BOTH
installers, consults the NeoForge catalog (fetching it when uncached), and —
with no optifine requested — returns the NeoForge installer's result, which
overwrites the Forge result in the shared `forgeVersion` slot. -/
theorem c1_amended (env : InstallEnv) (cache : List String) (locals : List LocalVersionHeader)
    (runtime : RuntimeVersions) (side : Side) (jar : Bool)
    (hf : runtime.forge ≠ "") (hn : runtime.neoForged ≠ "")
    (hlf : locals.find? (fun v => v.forge == runtime.forge && v.minecraft == runtime.minecraft) = none)
    (hln : locals.find? (fun v => v.neoForged == runtime.neoForged && v.minecraft == runtime.minecraft) = none) :
    (∃ fv inst, InstallEvent.installForge runtime.minecraft fv inst side ∈ (install env cache locals runtime side jar).2) ∧
    (∃ nv, InstallEvent.installNeoForged nv runtime.minecraft ∈ (install env cache locals runtime side jar).2) ∧
    (("/neoforged-versions/" ++ runtime.minecraft) ∉ cache →
      InstallEvent.fetch ("/neoforged-versions/" ++ runtime.minecraft) ∈ (install env cache locals runtime side jar).2) ∧
    (runtime.optifine = "" →
      (install env cache locals runtime side jar).1 =
        env.installNeoForgedResult
          (((env.neoForgedVersionList runtime.minecraft).find? fun v => v == runtime.neoForged).getD
            runtime.neoForged)
          runtime.minecraft) := by
  refine ⟨⟨((((env.forgeVersionList runtime.minecraft).find? fun v => v.version == runtime.forge).map
        ForgeCatalogEntry.version).getD runtime.forge),
      (((env.forgeVersionList runtime.minecraft).find? fun v => v.version == runtime.forge).bind
        ForgeCatalogEntry.installer), ?_⟩,
    ⟨(((env.neoForgedVersionList runtime.minecraft).find? fun v => v == runtime.neoForged).getD
        runtime.neoForged), ?_⟩, fun hkey => ?_, fun ho => ?_⟩
  · rw [install_trace_eq]
    apply List.mem_append_left
    apply List.mem_append_left
    apply List.mem_append_right
    simp [forgeStep, hf, hlf]
  · rw [install_trace_eq]
    apply List.mem_append_left
    apply List.mem_append_right
    simp [neoForgedStep, hn, hln]
  · rw [install_trace_eq]
    apply List.mem_append_left
    apply List.mem_append_right
    simp [neoForgedStep, hn, hln, cacheFetchEvents, hkey]
  · have hnp : (neoForgedStep env cache locals runtime).1 =
        some (env.installNeoForgedResult
          (((env.neoForgedVersionList runtime.minecraft).find? fun v => v == runtime.neoForged).getD
            runtime.neoForged)
          runtime.minecraft) := by
      simp [neoForgedStep, hn, hln]
    simp only [install]
    rw [hnp]
    simp [tailStep, ho]

/-- C1, witness: the amended statement applied to the concrete two-loader
request. -/
theorem c1_witness :
    (∃ fv inst, InstallEvent.installForge rtForgeNeo.minecraft fv inst Side.client ∈
        (install envA [] [] rtForgeNeo Side.client false).2) ∧
    (∃ nv, InstallEvent.installNeoForged nv rtForgeNeo.minecraft ∈
        (install envA [] [] rtForgeNeo Side.client false).2) ∧
    (("/neoforged-versions/" ++ rtForgeNeo.minecraft) ∉ ([] : List String) →
      InstallEvent.fetch ("/neoforged-versions/" ++ rtForgeNeo.minecraft) ∈
        (install envA [] [] rtForgeNeo Side.client false).2) ∧
    (rtForgeNeo.optifine = "" →
      (install envA [] [] rtForgeNeo Side.client false).1 =
        envA.installNeoForgedResult
          (((envA.neoForgedVersionList rtForgeNeo.minecraft).find? fun v => v == rtForgeNeo.neoForged).getD
            rtForgeNeo.neoForged)
          rtForgeNeo.minecraft) :=
  c1_amended envA [] [] rtForgeNeo Side.client false (by decide) (by decide) rfl rfl

/-- C2, code bug: when the configured java path does not exist
(`JavaValidation.NotExisted`) the caller observes `launchNoProperJava`, not
the claimed `launchInvalidJavaPath`; when it exists but is not executable
(`NoPermission`) the caller again observes `launchNoProperJava`, not
`launchJavaNoPermission` — the inner `catch` swallows the typed exceptions
thrown in its own `try` block, making both declared variants unobservable. -/
theorem c2_typed_java_errors_unobservable :
    launch envNotExisted optsPlain = Except.error (LaunchExceptions.launchNoProperJava "/java") ∧
    launch envNoPermission optsPlain = Except.error (LaunchExceptions.launchNoProperJava "/java") ∧
    launch envNotExisted optsPlain ≠ Except.error (LaunchExceptions.launchInvalidJavaPath "/java") ∧
    launch envNoPermission optsPlain ≠ Except.error (LaunchExceptions.launchJavaNoPermission "/java") := by
  have h1 : launch envNotExisted optsPlain = Except.error (LaunchExceptions.launchNoProperJava "/java") := rfl
  have h2 : launch envNoPermission optsPlain = Except.error (LaunchExceptions.launchNoProperJava "/java") := rfl
  refine ⟨h1, h2, ?_, ?_⟩
  · rw [h1]; simp
  · rw [h2]; simp

/-- C3: both public entry points wrap every untyped internal failure into
`launchGeneralException`, rethrow already-typed `LaunchException`s unchanged,
and pass successes through — so callers only ever observe the closed tag
set. -/
theorem c3_closed_taxonomy (env : LaunchEnv) (options : LaunchOptions) :
    (∀ e, launchInner env options = Except.error (RawError.js e) →
      launch env options = Except.error (LaunchExceptions.launchGeneralException e)) ∧
    (∀ t, launchInner env options = Except.error (RawError.typed t) →
      launch env options = Except.error t) ∧
    (∀ p, launchInner env options = Except.ok p → launch env options = Except.ok p) ∧
    (∀ e, generateArgumentsInner env options = Except.error (RawError.js e) →
      generateArguments env options = Except.error (LaunchExceptions.launchGeneralException e)) ∧
    (∀ t, generateArgumentsInner env options = Except.error (RawError.typed t) →
      generateArguments env options = Except.error t) ∧
    (∀ a, generateArgumentsInner env options = Except.ok a →
      generateArguments env options = Except.ok a) := by
  refine ⟨?_, ?_, ?_, ?_, ?_, ?_⟩ <;> intro x h <;>
    simp [launch, generateArguments, h, Except.mapError, wrapLaunchError]

/-- C3, witness: a rejected spawn and a rejected argument generation both
surface as `launchGeneralException`. -/
theorem c3_witness :
    launch envSpawnBoom optsPlain = Except.error (LaunchExceptions.launchGeneralException "boom") ∧
    generateArguments envArgsBoom optsPlain = Except.error (LaunchExceptions.launchGeneralException "argfail") :=
  ⟨(c3_closed_taxonomy envSpawnBoom optsPlain).1 "boom" rfl,
    (c3_closed_taxonomy envArgsBoom optsPlain).2.2.2.1 "argfail" rfl⟩

/-- C4, counterexample: even with both matching local headers present and no
force-reinstall, `install` still runs the fetch-or-reuse of the base catalog,
so with a cold cache a catalog fetch occurs — the claim's "zero catalog
fetches" fails. -/
theorem c4_counterexample :
    locals4.find? (fun v => v.id == rtForge.minecraft) = some hdrMc ∧
    locals4.find? (fun v => v.forge == rtForge.forge && v.minecraft == rtForge.minecraft) = some hdrForge ∧
    (install envA [] locals4 rtForge Side.client false).1 = "1.20.1-forge-47.2.0" ∧
    InstallEvent.fetch "/minecraft-versions" ∈ (install envA [] locals4 rtForge Side.client false).2 := by
  refine ⟨by decide, by decide, by decide, by decide⟩

/-- C4, amended: with forge set, both matching local headers present, no
force-reinstall and neoForged/optifine unset, `install` performs zero
installer invocations and zero loader-catalog fetches and returns the
existing forge header id; the only other effects are the unconditional
fetch-or-reuse of the base catalog (an actual fetch iff its key is uncached)
and the two refreshes. -/
theorem c4_amended (env : InstallEnv) (cache : List String) (locals : List LocalVersionHeader)
    (runtime : RuntimeVersions) (side : Side) (lm lf : LocalVersionHeader)
    (hf : runtime.forge ≠ "") (hn : runtime.neoForged = "") (ho : runtime.optifine = "")
    (hlm : locals.find? (fun v => v.id == runtime.minecraft) = some lm)
    (hlf : locals.find? (fun v => v.forge == runtime.forge && v.minecraft == runtime.minecraft) = some lf) :
    install env cache locals runtime side false =
      (lf.id, cacheFetchEvents cache "/minecraft-versions" ++
        [InstallEvent.refreshVersion lm.id, InstallEvent.refreshVersion lf.id]) := by
  simp [install, baseStep, forgeStep, neoForgedStep, tailStep, hf, hn, ho, hlm, hlf]

/-- C4, witness: the amended statement evaluated on the concrete fast-path
request with a cold cache. -/
theorem c4_witness :
    install envA [] locals4 rtForge Side.client false =
      ("1.20.1-forge-47.2.0",
        [InstallEvent.fetch "/minecraft-versions", InstallEvent.refreshVersion "1.20.1",
         InstallEvent.refreshVersion "1.20.1-forge-47.2.0"]) := by
  have h := c4_amended envA [] locals4 rtForge Side.client hdrMc hdrForge
    (by decide) rfl rfl (by decide) (by decide)
  simpa [cacheFetchEvents, hdrMc, hdrForge] using h

/-- C5: whenever the consolidated exit event appears in the trace of a
reachable supervision state, every pending stderr-decode task had completed
(the pending set is empty and the exit event is the final trace event, after
all stderr events), its `errorLog` is the newline-join of the line blocks of
ALL chunks received before process death (in completion order), and its
crash-report location is the normalized one. -/
theorem c5_exit_after_stderr_drained (decode : String → String) (eol : String)
    (info : ExitInfo) (s : SupState) (hreach : SupReachable decode eol info s)
    (el cl : String) (hmem : SupEvent.exited el cl ∈ s.trace) :
    s.pending = [] ∧
    (∃ t, s.trace = t ++ [SupEvent.exited el cl] ∧
      ∀ el2 cl2, SupEvent.exited el2 cl2 ∉ t) ∧
    (∃ completed, s.received.Perm completed ∧
      el = joinLines (completed.flatMap (chunkLines decode eol))) ∧
    cl = emittedCrashReportLocation info.crashReportLocation := by
  obtain ⟨⟨completed, hperm, hlogs⟩, hex, hnex⟩ := supInv_reachable hreach
  cases hemit : s.exitEmitted with
  | false => exact absurd hmem (hnex hemit el cl)
  | true =>
    obtain ⟨hd, hpend, t, htr, hnt⟩ := hex hemit
    rw [htr] at hmem
    rcases List.mem_append.mp hmem with hm | hm
    · exact absurd hm (hnt el cl)
    · have heq : SupEvent.exited el cl =
          SupEvent.exited (joinLines s.errorLogs)
            (emittedCrashReportLocation info.crashReportLocation) := by
        simpa using hm
      injection heq with hel hcl
      refine ⟨hpend, ⟨t, ?_, hnt⟩, ⟨completed, ?_, ?_⟩, hcl⟩
      · rw [htr, hel, hcl]
      · simpa [hpend] using hperm
      · rw [hel, hlogs]

/-- C5, witness: a concrete run — receive one chunk, die, drain the decode,
emit exit — reaches `supFinal`, whose exit event satisfies the theorem. -/
theorem c5_witness :
    supFinal.pending = [] ∧
    (∃ t, supFinal.trace = t ++ [SupEvent.exited "err1\nerr2" "C:\\logs\\crash-2024.txt"] ∧
      ∀ el2 cl2, SupEvent.exited el2 cl2 ∉ t) ∧
    (∃ completed, supFinal.received.Perm completed ∧
      "err1\nerr2" = joinLines (completed.flatMap (chunkLines decodeId "\n"))) ∧
    "C:\\logs\\crash-2024.txt" = emittedCrashReportLocation infoW.crashReportLocation := by
  have hreach : SupReachable decodeId "\n" infoW supFinal := by
    refine Relation.ReflTransGen.head (SupStep.recv _ "err1\nerr2" rfl) ?_
    refine Relation.ReflTransGen.head (SupStep.die _ rfl) ?_
    refine Relation.ReflTransGen.head (SupStep.complete _ [] [] "err1\nerr2" rfl) ?_
    refine Relation.ReflTransGen.head (SupStep.emitExit _ rfl rfl rfl) ?_
    exact Relation.ReflTransGen.refl
  exact c5_exit_after_stderr_drained decodeId "\n" infoW supFinal hreach
    "err1\nerr2" "C:\\logs\\crash-2024.txt" (by decide)

/-- C6, counterexample: a line terminator occurring BEFORE the last `.txt`
survives normalization — the code removes only the first `\r\n` occurrence
and trims the ends — so the emitted location is not "the truncation with
line terminators removed" the claim describes. -/
theorem c6_counterexample :
    emittedCrashReportLocation (some "a\n.txt") = "a\n.txt" ∧
    '\n' ∈ (emittedCrashReportLocation (some "a\n.txt")).toList ∧
    crashReportLocationSpec "a\n.txt" = "a.txt" ∧
    ("a\n.txt" : String) ≠ "a.txt" := by
  refine ⟨by decide, by decide, by decide, by decide⟩

/-- C6, amended: for every location in which `.txt` occurs (last occurrence
at `i`), the emitted value is the truncation just after that occurrence with
only the FIRST `\r\n` occurrence removed and the ends trimmed; in
particular the spec's worked example evaluates to the claimed value. -/
theorem c6_amended (s : String) (i : Nat)
    (hocc : lastOccurrence s.toList ".txt".toList = some i) :
    emittedCrashReportLocation (some s) =
      jsTrim (jsReplaceFirst (String.mk (s.toList.take (i + 4))) "\r\n" "") ∧
    emittedCrashReportLocation (some "C:\\logs\\crash-2024.txt\nTail") =
      "C:\\logs\\crash-2024.txt" := by
  constructor
  · have hs : s ≠ "" := by
      rintro rfl
      rw [show lastOccurrence "".toList ".txt".toList = none from by decide] at hocc
      exact Option.noConfusion hocc
    have hmk : String.mk s.toList = s := by cases s; rfl
    have hne : s.toList ≠ [] := by
      intro hl
      apply hs
      rw [← hmk, hl]
    have htrunc : truncatedCrashReportLocation s = String.mk (s.toList.take (i + 4)) := by
      unfold truncatedCrashReportLocation jsLastIndexOf jsSubstringTo
      rw [hocc]
      have h4 : ((i : Int) + 4).toNat = i + 4 := by omega
      rw [h4]
    obtain ⟨c, rest, hcons⟩ := List.exists_cons_of_ne_nil hne
    have htne : String.mk (s.toList.take (i + 4)) ≠ "" := by
      rw [hcons]
      show String.mk ((c :: rest).take (i + 3 + 1)) ≠ ""
      rw [List.take_succ_cons]
      intro hemp
      have hfl := congrArg String.toList hemp
      simp at hfl
    unfold emittedCrashReportLocation
    simp only [hs, if_pos, htrunc]
    rw [if_pos hs, if_pos htne]
  · decide

/-- C6, witness: the amended statement instantiated at the spec's worked
example (last `.txt` occurrence at index 18). -/
theorem c6_witness :
    emittedCrashReportLocation (some "C:\\logs\\crash-2024.txt\nTail") =
      jsTrim (jsReplaceFirst (String.mk (("C:\\logs\\crash-2024.txt\nTail".toList).take (18 + 4))) "\r\n" "") ∧
    emittedCrashReportLocation (some "C:\\logs\\crash-2024.txt\nTail") =
      "C:\\logs\\crash-2024.txt" :=
  c6_amended "C:\\logs\\crash-2024.txt\nTail" 18 (by decide)

/-- C7: with both fabricLoader and quiltLoader requested and no
forge/neoForged/optifine, `install` resolves through the Fabric branch
(either a matching local Fabric header's id or the Fabric installer's
result) and the Quilt installer is never invoked. -/
theorem c7_fabric_precedes_quilt (env : InstallEnv) (cache : List String)
    (locals : List LocalVersionHeader) (runtime : RuntimeVersions) (side : Side) (jar : Bool)
    (hfab : runtime.fabricLoader ≠ "") (_hq : runtime.quiltLoader ≠ "")
    (hf : runtime.forge = "") (hn : runtime.neoForged = "") (ho : runtime.optifine = "") :
    ((∃ h, locals.find? (fun v => v.fabric == runtime.fabricLoader && v.minecraft == runtime.minecraft) = some h ∧
        (install env cache locals runtime side jar).1 = h.id) ∨
      (locals.find? (fun v => v.fabric == runtime.fabricLoader && v.minecraft == runtime.minecraft) = none ∧
        (install env cache locals runtime side jar).1 =
          env.installFabricResult runtime.fabricLoader runtime.minecraft)) ∧
    (∀ a b, InstallEvent.installQuilt a b ∉ (install env cache locals runtime side jar).2) := by
  have hfp : forgeStep env cache locals runtime side = (none, []) := by
    simp [forgeStep, hf]
  have hnp : neoForgedStep env cache locals runtime = (none, []) := by
    simp [neoForgedStep, hn]
  have hinst : install env cache locals runtime side jar =
      ((tailStep env cache locals runtime none).1,
        baseStep env cache locals runtime side jar ++ (tailStep env cache locals runtime none).2) := by
    simp [install, hfp, hnp]
  cases hfind : locals.find? (fun v => v.fabric == runtime.fabricLoader && v.minecraft == runtime.minecraft) with
  | some h =>
    have htail : tailStep env cache locals runtime none = (h.id, [InstallEvent.refreshVersion h.id]) := by
      simp [tailStep, ho, hfab, hfind]
    refine ⟨Or.inl ⟨h, rfl, by rw [hinst, htail]⟩, fun a b hmem => ?_⟩
    rw [hinst] at hmem
    simp only [htail] at hmem
    rcases List.mem_append.mp hmem with hm | hm
    · exact installQuilt_not_mem_baseStep env cache locals runtime side jar a b hm
    · simp at hm
  | none =>
    have htail : tailStep env cache locals runtime none =
        (env.installFabricResult runtime.fabricLoader runtime.minecraft,
          [InstallEvent.installFabric runtime.fabricLoader runtime.minecraft]) := by
      simp [tailStep, ho, hfab, hfind]
    refine ⟨Or.inr ⟨rfl, by rw [hinst, htail]⟩, fun a b hmem => ?_⟩
    rw [hinst] at hmem
    simp only [htail] at hmem
    rcases List.mem_append.mp hmem with hm | hm
    · exact installQuilt_not_mem_baseStep env cache locals runtime side jar a b hm
    · simp at hm

/-- C7, witness: the concrete fabric-plus-quilt request with no local
headers resolves to the Fabric installer's result and never invokes the
Quilt installer. -/
theorem c7_witness :
    ((∃ h, ([] : List LocalVersionHeader).find? (fun v => v.fabric == rtFabQuilt.fabricLoader && v.minecraft == rtFabQuilt.minecraft) = some h ∧
        (install envA [] [] rtFabQuilt Side.client false).1 = h.id) ∨
      (([] : List LocalVersionHeader).find? (fun v => v.fabric == rtFabQuilt.fabricLoader && v.minecraft == rtFabQuilt.minecraft) = none ∧
        (install envA [] [] rtFabQuilt Side.client false).1 =
          envA.installFabricResult rtFabQuilt.fabricLoader rtFabQuilt.minecraft)) ∧
    (∀ a b, InstallEvent.installQuilt a b ∉ (install envA [] [] rtFabQuilt Side.client false).2) :=
  c7_fabric_precedes_quilt envA [] [] rtFabQuilt Side.client false
    (by decide) (by decide) rfl rfl rfl

/-- C8: the core launch configuration built by `#generateOptions` — the one
handed to the argument generator and the spawner — sets its minimum-memory
bound to `options.maxMemory` and its maximum-memory bound to
`options.minMemory`: the two requested bounds are exchanged. -/
theorem c8_memory_bounds_swapped (resourcePath : String) (addr : AppAddress)
    (options : LaunchOptions) (version : ResolvedVersion) (accessToken : Option String)
    (co : CoreLaunchOption)
    (h : generateOptions resourcePath addr options version accessToken = Except.ok co) :
    co.minMemory = options.maxMemory ∧ co.maxMemory = options.minMemory := by
  unfold generateOptions at h
  split at h
  · injection h with h
    subst h
    exact ⟨rfl, rfl⟩
  · split at h
    · simp at h
    · injection h with h
      subst h
      exact ⟨rfl, rfl⟩

/-- C8, witness: requesting max 4096 / min 1024 yields a configuration with
minMemory 4096 and maxMemory 1024. -/
theorem c8_witness :
    ∃ co, generateOptions "/resources" none optsMem vRes (some "token") = Except.ok co ∧
      co.minMemory = optsMem.maxMemory ∧ co.maxMemory = optsMem.minMemory :=
  ⟨_, rfl, c8_memory_bounds_swapped "/resources" none optsMem vRes (some "token") _ rfl⟩

/-- C9: when no local header matches the requested base version (or a jar
reinstall is forced) and the fetched base catalog has no entry for it either,
`install` raises no typed resolution error — the base installer is invoked
with the absent (`none`) catalog-lookup result, the non-null assertion being
the only guard. -/
theorem c9_unchecked_catalog_miss (env : InstallEnv) (cache : List String)
    (locals : List LocalVersionHeader) (runtime : RuntimeVersions) (side : Side) (jar : Bool)
    (hmiss : locals.find? (fun v => v.id == runtime.minecraft) = none ∨ jar = true)
    (hcat : env.minecraftVersions.find? (fun v => v == runtime.minecraft) = none) :
    InstallEvent.installMinecraft none side ∈ (install env cache locals runtime side jar).2 := by
  rw [install_trace_eq]
  apply List.mem_append_left
  apply List.mem_append_left
  apply List.mem_append_left
  unfold baseStep
  rcases hmiss with h | h
  · rw [h]
    simp [hcat]
  · subst h
    cases hfind : locals.find? (fun v => v.id == runtime.minecraft) <;> simp [hcat]

/-- C9, witness: with no locals and an empty base catalog the installer is
invoked with `none`. -/
theorem c9_witness :
    InstallEvent.installMinecraft none Side.client ∈
      (install envEmptyCat [] [] rtForge Side.client false).2 :=
  c9_unchecked_catalog_miss envEmptyCat [] [] rtForge Side.client false (Or.inl rfl) rfl

/-- C10: on every successful completion, `launch` resolves to the pid of the
process returned by the core spawner (a number or `none` when the handle
carries none) — not a boolean success flag. -/
theorem c10_launch_resolves_pid (env : LaunchEnv) (options : LaunchOptions) (p : Option Nat)
    (h : launch env options = Except.ok p) :
    ∃ co process, env.coreLaunch co = Except.ok process ∧ p = process.pid := by
  have hinner : launchInner env options = Except.ok p := by
    cases hli : launchInner env options with
    | ok v =>
      have hv : v = p := by simpa [launch, hli, Except.mapError] using h
      rw [hv]
    | error e => simp [launch, hli, Except.mapError] at h
  unfold launchInner at hinner
  repeat' split at hinner
  all_goals try simp at hinner
  rename_i process heq
  exact ⟨_, process, heq, hinner.symm⟩

/-- C10, witness: the all-success environment spawns pid 42 and `launch`
resolves to it. -/
theorem c10_witness :
    ∃ co process, envOk.coreLaunch co = Except.ok process ∧ (some 42 : Option Nat) = process.pid :=
  c10_launch_resolves_pid envOk optsPlain (some 42) rfl

end XMCL
